import Mathlib

/-!
Verification of the skywatch grid-extraction, decumulation and cross-source
alignment pipeline (`backend/parsers/netcdf_parser.py` and
`backend/parsers/unified_parser.py`), shallowly embedded over exact rationals
(floating-point special values NaN/Inf are modelled explicitly by `FVal`).
-/

namespace Skywatch

/-- A scalar as it appears in a parsed grid: a finite number (modelled as a
rational), positive or negative infinity, or NaN. -/
inductive FVal where
  | fin (q : ℚ)
  | pinf
  | ninf
  | nan
deriving DecidableEq, Repr

/-- `np.isnan` on a grid scalar. -/
def FVal.isnan : FVal → Bool
  | .nan => true
  | _ => false

/-- `np.isinf` on a grid scalar. -/
def FVal.isinf : FVal → Bool
  | .pinf => true
  | .ninf => true
  | _ => false

/-- A scalar is finite when it is neither NaN nor an infinity. -/
def FVal.isfinite : FVal → Bool
  | .fin _ => true
  | _ => false

/-- IEEE-style comparison `v > 0` (NaN compares false, `+inf > 0` is true). -/
def FVal.gtZero : FVal → Bool
  | .fin q => decide (0 < q)
  | .pinf => true
  | _ => false

/-- The finite payload of a scalar (0 for the non-finite values). -/
def FVal.toQ : FVal → ℚ
  | .fin q => q
  | _ => 0

/-- PM2.5 point filter, `netcdf_parser.py` line 194:
`not np.isnan(pm25_val) and not np.isinf(pm25_val)`. -/
def pm25Emit (v : FVal) : Bool := !v.isnan && !v.isinf

/-- Wind point filter, `netcdf_parser.py` line 201:
`not np.isnan(u_val) and not np.isnan(v_val)`. -/
def windEmit (u v : FVal) : Bool := !u.isnan && !v.isnan

/-- Precipitation point filter, `netcdf_parser.py` line 214:
`not np.isnan(precip_val) and not np.isinf(precip_val) and precip_val > 0`. -/
def precipEmit (v : FVal) : Bool := !v.isnan && !v.isinf && v.gtZero

/-- Merged-output precipitation point filter, `unified_parser.py` line 74:
`precip_val is not None and not np.isnan(precip_val)` (a JSON `null` is
modelled as `none`). -/
def unifiedPrecipEmit : Option FVal → Bool
  | none => false
  | some v => !v.isnan

/-- The precipitation decumulation loop of `netcdf_parser.py` lines 160-176,
restricted to one grid cell: `prev` is `prev_precip_cumulative`, the carried
state; at each timestep the emitted value is `cumulative * 1000` when there is
no prior state, and `max((cumulative - prev) * 1000, 0)` otherwise, and the
current cumulative value becomes the next state. -/
def decumGo (prev : Option ℚ) : List ℚ → List ℚ
  | [] => []
  | c :: rest =>
      (match prev with
       | none => c * 1000
       | some p => max ((c - p) * 1000) 0) :: decumGo (some c) rest

/-- Decumulation of a cell's cumulative precipitation series (meters) into
interval values (millimeters); the loop starts with no prior state. -/
def decumulate (cum : List ℚ) : List ℚ := decumGo none cum

/-- Longitude conversion of `netcdf_parser.py` line 117:
`np.where(lons > 180, lons - 360, lons)`, per element. -/
def normalizeLon (l : ℚ) : ℚ := if l > 180 then l - 360 else l

/-- Timestamp matching loop of `unified_parser.py` lines 57-63: scan the
secondary timestamps in order and return the index of the first whose absolute
difference from the primary time `p` is strictly below `tol` (hours). -/
def findMatch (p tol : ℚ) : List ℚ → Option ℕ
  | [] => none
  | s :: rest => if |p - s| < tol then some 0 else (findMatch p tol rest).map (· + 1)

/-- Python `int()` applied to a rational: truncation toward zero. -/
def ratTrunc (q : ℚ) : ℤ := if 0 ≤ q then ⌊q⌋ else ⌈q⌉

/-- The `forecast_hour` computation of `unified_parser.py` lines 94-98, one
entry per primary timestep (times in seconds): `0` when no merged timestep has
been emitted yet (first iteration), otherwise
`int((cams_time - first_time).total_seconds() / 3600)`. -/
def forecastHoursGo (first : ℚ) (emitted : ℕ) : List ℚ → List ℤ
  | [] => []
  | t :: rest =>
      (if emitted = 0 then 0 else ratTrunc ((t - first) / 3600)) ::
        forecastHoursGo first (emitted + 1) rest

/-- Forecast hours of all merged timesteps; `first_time` is the first primary
timestamp. -/
def forecastHours (times : List ℚ) : List ℤ :=
  forecastHoursGo (times.getD 0 0) 0 times

/-- `np.min` over a nonempty value list (0 on the empty list, which the
callers guard against). -/
def listMin : List ℚ → ℚ
  | [] => 0
  | x :: xs => xs.foldl min x

/-- `np.max` over a nonempty value list (0 on the empty list). -/
def listMax : List ℚ → ℚ
  | [] => 0
  | x :: xs => xs.foldl max x

/-- `np.mean`: sum divided by length. -/
def listMean (l : List ℚ) : ℚ := if l.isEmpty then 0 else l.sum / l.length

/-- `np.median`: sort ascending; middle element for odd length, average of the
two middle elements for even length. -/
def listMedian (l : List ℚ) : ℚ :=
  let s := l.mergeSort (fun a b => decide (a ≤ b))
  if l.length % 2 = 1 then s.getD (l.length / 2) 0
  else (s.getD (l.length / 2 - 1) 0 + s.getD (l.length / 2) 0) / 2

/-- PM2.5 statistics record, `netcdf_parser.py` lines 223-228. -/
structure Pm25Stats where
  min : ℚ
  max : ℚ
  mean : ℚ
  median : ℚ
deriving DecidableEq, Repr

/-- `pm25_stats`: each field falls back to 0 when the value list is empty. -/
def pm25Stats (vals : List ℚ) : Pm25Stats :=
  if vals.isEmpty then ⟨0, 0, 0, 0⟩
  else ⟨listMin vals, listMax vals, listMean vals, listMedian vals⟩

/-- Wind statistics record, `netcdf_parser.py` lines 231-235. -/
structure WindStats where
  minSpeed : ℚ
  maxSpeed : ℚ
  meanSpeed : ℚ
deriving DecidableEq, Repr

/-- `wind_stats` over the emitted wind speeds. -/
def windStats (speeds : List ℚ) : WindStats :=
  if speeds.isEmpty then ⟨0, 0, 0⟩
  else ⟨listMin speeds, listMax speeds, listMean speeds⟩

/-- Precipitation statistics record, `netcdf_parser.py` lines 240-247. -/
structure PrecipStats where
  min : ℚ
  max : ℚ
  mean : ℚ
  total : ℚ
deriving DecidableEq, Repr

/-- `precip_stats` of the NetCDF parser: all-zero when no point was emitted,
otherwise min/max/mean/sum of the emitted values. -/
def precipStats (vals : List ℚ) : PrecipStats :=
  if vals.isEmpty then ⟨0, 0, 0, 0⟩
  else ⟨listMin vals, listMax vals, listMean vals, vals.sum⟩

/-- `precip_stats` of the unified parser, `unified_parser.py` lines 82-91:
same shape and fallback as the NetCDF-side statistics. -/
def unifiedPrecipStats (vals : List ℚ) : PrecipStats :=
  if vals.isEmpty then ⟨0, 0, 0, 0⟩
  else ⟨listMin vals, listMax vals, listMean vals, vals.sum⟩

/-- PM2.5 variable aliases, `netcdf_parser.py` line 51. -/
def pm25Aliases : List String := ["pm2p5", "pm2.5", "pm25", "particulate_matter_2p5um"]

/-- U-wind variable aliases, `netcdf_parser.py` line 52. -/
def uWindAliases : List String := ["u10", "u10m", "10m_u_component_of_wind"]

/-- V-wind variable aliases, `netcdf_parser.py` line 53. -/
def vWindAliases : List String := ["v10", "v10m", "10m_v_component_of_wind"]

/-- Precipitation variable aliases, `netcdf_parser.py` line 54. -/
def precipAliases : List String := ["tp", "total_precipitation", "precipitation"]

/-- Latitude dimension aliases, `netcdf_parser.py` line 66. -/
def latAliases : List String := ["latitude", "lat"]

/-- Longitude dimension aliases, `netcdf_parser.py` line 67. -/
def lonAliases : List String := ["longitude", "lon"]

/-- Time dimension aliases, `netcdf_parser.py` line 68. -/
def timeAliases : List String := ["forecast_period", "time", "valid_time"]

/-- `NetCDFParser._detect_variable`: first candidate present among the
dataset's data variables, else `none`. -/
def detectVariable (data_vars : List String) : List String → Option String
  | [] => none
  | n :: rest => if n ∈ data_vars then some n else detectVariable data_vars rest

/-- `NetCDFParser._detect_dimension`: first candidate present among the
dataset's dimensions, else `none`. -/
def detectDimension (dims : List String) : List String → Option String
  | [] => none
  | n :: rest => if n ∈ dims then some n else detectDimension dims rest

/-- The names resolved by the schema-detection phase of `NetCDFParser.parse`. -/
structure DetectedSchema where
  pm25Var : String
  uWindVar : String
  vWindVar : String
  precipVar : Option String
  latCoord : String
  lonCoord : String
  timeCoord : String
deriving DecidableEq, Repr

/-- Schema-detection phase of `NetCDFParser.parse` (lines 50-73): the three
quantity variables are required and checked first, then the three structural
dimensions; the precipitation variable is looked up but never required. -/
def detectSchema (data_vars dims : List String) : Except String DetectedSchema :=
  match detectVariable data_vars pm25Aliases,
        detectVariable data_vars uWindAliases,
        detectVariable data_vars vWindAliases with
  | some pv, some uv, some vv =>
      match detectDimension dims latAliases,
            detectDimension dims lonAliases,
            detectDimension dims timeAliases with
      | some la, some lo, some ti =>
          .ok ⟨pv, uv, vv, detectVariable data_vars precipAliases, la, lo, ti⟩
      | _, _, _ => .error "Could not detect dimensions"
  | _, _, _ => .error "Could not detect required variables"

/-- `np.arctan2 y x`: the argument of the point `(x, y)`, in `(-π, π]`. -/
noncomputable def atan2 (y x : ℝ) : ℝ := Complex.arg ⟨x, y⟩

/-- `np.degrees`: radians to degrees. -/
noncomputable def degrees (r : ℝ) : ℝ := r * (180 / Real.pi)

/-- Python/numpy `%` on reals with a positive modulus:
`x - y * floor(x / y)`. -/
noncomputable def rmod (x y : ℝ) : ℝ := x - y * ⌊x / y⌋

/-- Wind speed, `netcdf_parser.py` line 154: `sqrt(u**2 + v**2)`. -/
noncomputable def windSpeed (u v : ℝ) : ℝ := Real.sqrt (u ^ 2 + v ^ 2)

/-- Wind direction, `netcdf_parser.py` line 156:
`(270 - np.degrees(np.arctan2(v, u))) % 360`. -/
noncomputable def windDirection (u v : ℝ) : ℝ :=
  rmod (270 - degrees (atan2 v u)) 360

/-! ## Claim C1: precipitation decumulation -/

lemma decumGo_length (prev : Option ℚ) (l : List ℚ) :
    (decumGo prev l).length = l.length := by
  induction l generalizing prev with
  | nil => rfl
  | cons c rest ih => simp [decumGo, ih]

lemma decumGo_getD (p : ℚ) (tail : List ℚ) (t : ℕ) (h : t < tail.length) :
    (decumGo (some p) tail).getD t 0 =
      max ((tail.getD t 0 - (if t = 0 then p else tail.getD (t - 1) 0)) * 1000) 0 := by
  induction tail generalizing p t with
  | nil => simp at h
  | cons c rest ih =>
    cases t with
    | zero => simp [decumGo]
    | succ s =>
      have hs : s < rest.length := by simpa using h
      simp only [decumGo, List.getD_cons_succ]
      rw [ih c s hs]
      congr 2
      cases s with
      | zero => simp
      | succ u => simp

/-- Claim C1: per grid cell, the decumulated series has one entry per
timestep; entry 0 is `cumulative[0] * 1000` (meters to millimeters), entry
`t > 0` is `max 0 ((cumulative[t] - cumulative[t-1]) * 1000)`, and in
particular every entry at `t > 0` is nonnegative even when the cumulative
input decreases. -/
theorem precip_decumulation (cum : List ℚ) (t : ℕ) (h : t < cum.length) :
    (decumulate cum).length = cum.length ∧
    (decumulate cum).getD t 0 =
      (if t = 0 then cum.getD 0 0 * 1000
       else max 0 ((cum.getD t 0 - cum.getD (t - 1) 0) * 1000)) ∧
    (0 < t → 0 ≤ (decumulate cum).getD t 0) := by
  obtain ⟨c, rest, rfl⟩ : ∃ c rest, cum = c :: rest := by
    cases cum with
    | nil => simp at h
    | cons c rest => exact ⟨c, rest, rfl⟩
  refine ⟨by simp [decumulate, decumGo, decumGo_length], ?_, ?_⟩
  · cases t with
    | zero => simp [decumulate, decumGo]
    | succ s =>
      have hs : s < rest.length := by simpa using h
      simp only [decumulate, decumGo, List.getD_cons_succ, Nat.succ_ne_zero,
        if_false, Nat.succ_sub_one]
      rw [decumGo_getD c rest s hs, max_comm]
      congr 2
      cases s with
      | zero => simp
      | succ u => simp
  · intro hpos
    cases t with
    | zero => exact absurd hpos (lt_irrefl 0)
    | succ s =>
      have hs : s < rest.length := by simpa using h
      simp only [decumulate, decumGo, List.getD_cons_succ]
      rw [decumGo_getD c rest s hs]
      exact le_max_right _ _

/-- Claim C1 witness: the spec's own example, cumulative
`[0, 0.0009, 0.0008]` meters, yields interval values `0.9` mm at `t = 1` and
`0` (not `-0.1`) at `t = 2`. -/
theorem precip_decumulation_witness :
    (decumulate [0, 9/10000, 8/10000]).getD 1 0 = 9/10 ∧
    0 ≤ (decumulate [0, 9/10000, 8/10000]).getD 1 0 ∧
    (decumulate [0, 9/10000, 8/10000]).getD 2 0 = 0 := by
  have h1 := precip_decumulation ([0, 9/10000, 8/10000] : List ℚ) 1 (by norm_num)
  have h2 := precip_decumulation ([0, 9/10000, 8/10000] : List ℚ) 2 (by norm_num)
  refine ⟨?_, h1.2.2 (by norm_num), ?_⟩
  · rw [h1.2.1]
    norm_num [List.getD]
  · rw [h2.2.1]
    norm_num [List.getD]

/-! ## Claim C2: first-match cross-source alignment -/

lemma findMatch_spec (p tol : ℚ) : ∀ (s : List ℚ) (i : ℕ),
    findMatch p tol s = some i ↔
      i < s.length ∧ |p - s.getD i 0| < tol ∧
        ∀ j, j < i → tol ≤ |p - s.getD j 0| := by
  intro s
  induction s with
  | nil =>
    intro i
    simp [findMatch]
  | cons c rest ih =>
    intro i
    by_cases hc : |p - c| < tol
    · simp only [findMatch, if_pos hc]
      constructor
      · intro h
        have hi0 : i = 0 := by
          injection h with h'
          exact h'.symm
        subst hi0
        refine ⟨Nat.succ_pos _, by simpa using hc, ?_⟩
        intro j hj
        exact absurd hj (Nat.not_lt_zero j)
      · rintro ⟨hlen, hi, hfirst⟩
        cases i with
        | zero => rfl
        | succ n =>
          have h0 := hfirst 0 (Nat.succ_pos n)
          simp only [List.getD_cons_zero] at h0
          exact absurd hc (not_lt.mpr h0)
    · simp only [findMatch, if_neg hc]
      cases i with
      | zero =>
        constructor
        · intro h
          cases hfm : findMatch p tol rest with
          | none => rw [hfm] at h; simp at h
          | some m => rw [hfm] at h; simp at h
        · rintro ⟨hlen, hi, hfirst⟩
          simp only [List.getD_cons_zero] at hi
          exact absurd hi hc
      | succ n =>
        constructor
        · intro h
          have hfm : findMatch p tol rest = some n := by
            cases hfm : findMatch p tol rest with
            | none => rw [hfm] at h; simp at h
            | some m =>
              rw [hfm] at h
              simp only [Option.map_some'] at h
              injection h with h'
              have hmn : m = n := by omega
              exact congrArg some hmn
          obtain ⟨hlen, hi, hfirst⟩ := (ih n).mp hfm
          refine ⟨by simpa using Nat.succ_lt_succ hlen, by simpa using hi, ?_⟩
          intro j hj
          cases j with
          | zero => simpa using not_lt.mp hc
          | succ j' =>
            have := hfirst j' (by omega)
            simpa using this
        · rintro ⟨hlen, hi, hfirst⟩
          have hrest : findMatch p tol rest = some n := by
            apply (ih n).mpr
            refine ⟨by simpa using hlen, by simpa using hi, ?_⟩
            intro j hj
            have := hfirst (j + 1) (by omega)
            simpa using this
          rw [hrest]
          rfl

/-- Claim C2: the aligner's match is the first secondary index, in source
order, whose absolute time difference from the primary time is strictly less
than the tolerance (every earlier index is at distance at least the
tolerance); in particular, with primary time `T = 0`, secondary offsets
`[-2, -0.5, +0.9]` hours and tolerance 1 hour it selects index 1, and with
offsets `[+0.9, +0.1]` it selects index 0 even though index 1 is closer. -/
theorem align_first_match (p tol : ℚ) (s : List ℚ) (i : ℕ) :
    (findMatch p tol s = some i ↔
      i < s.length ∧ |p - s.getD i 0| < tol ∧
        ∀ j, j < i → tol ≤ |p - s.getD j 0|) ∧
    findMatch 0 1 [-2, -1/2, 9/10] = some 1 ∧
    findMatch 0 1 [9/10, 1/10] = some 0 :=
  ⟨findMatch_spec p tol s i, by norm_num [findMatch, abs_lt],
    by norm_num [findMatch, abs_lt]⟩

/-! ## Claim C3: longitude normalization -/

/-- Claim C3 counterexample: the input longitude 180 is left unchanged by the
normalization (the code only shifts longitudes strictly greater than 180), so
the output 180 is not in the half-open interval `[-180, 180)`. -/
theorem normalizeLon_at_180 :
    normalizeLon 180 = 180 ∧ decide (normalizeLon 180 < (180 : ℚ)) = false := by
  constructor
  · norm_num [normalizeLon]
  · rw [decide_eq_false_iff_not]
    norm_num [normalizeLon]

/-- Claim C3 (amended): the normalization always preserves the longitude
modulo 360 (the output is the input minus an integer multiple of 360), and for
every input longitude in `[-180, 180) ∪ (180, 540)` the output lies in
`[-180, 180)`; the input 180 itself (and inputs outside that union) can map
outside the interval. -/
theorem normalizeLon_spec (l : ℚ) :
    (∃ k : ℤ, normalizeLon l = l - 360 * k) ∧
    (((-180 ≤ l ∧ l < 180) ∨ (180 < l ∧ l < 540)) →
      -180 ≤ normalizeLon l ∧ normalizeLon l < 180) := by
  by_cases hgt : l > 180
  · constructor
    · refine ⟨1, ?_⟩
      simp only [normalizeLon, if_pos hgt]
      ring
    · rintro (⟨h1, h2⟩ | ⟨h1, h2⟩)
      · exact absurd hgt (by linarith)
      · simp only [normalizeLon, if_pos hgt]
        constructor <;> linarith
  · constructor
    · refine ⟨0, ?_⟩
      simp only [normalizeLon, if_neg hgt]
      ring
    · rintro (⟨h1, h2⟩ | ⟨h1, h2⟩)
      · simp only [normalizeLon, if_neg hgt]
        exact ⟨h1, h2⟩
      · exact absurd h1 (by simpa using hgt)

/-! ## Claim C4: wind point emission -/

/-- Claim C4 counterexample: the wind filter only tests for NaN, so a point
with an infinite u component (and finite v) is emitted even though u is not
finite. -/
theorem wind_inf_point_emitted :
    windEmit FVal.pinf (FVal.fin 0) = true ∧
    FVal.isfinite FVal.pinf = false ∧
    FVal.isinf FVal.pinf = true := by
  decide

/-- Claim C4 (amended): a wind point is emitted if and only if neither the u
component nor the v component is NaN; infinite components are not filtered
(unlike the PM2.5 and precipitation filters, which also reject infinities). -/
theorem wind_emit_iff_not_nan (u v : FVal) :
    windEmit u v = true ↔ u.isnan = false ∧ v.isnan = false := by
  cases u <;> cases v <;> simp [windEmit, FVal.isnan]

/-! ## Claim C5: forecast hour of a merged timestep -/

lemma floor_three_halves : ⌊(3 : ℚ) / 2⌋ = 1 := by
  rw [Int.floor_eq_iff]
  constructor <;> norm_num

lemma ratTrunc_three_halves : ratTrunc (3 / 2) = 1 := by
  rw [ratTrunc, if_pos (by norm_num : (0 : ℚ) ≤ 3 / 2)]
  exact floor_three_halves

lemma forecastHoursGo_length (first : ℚ) (e : ℕ) (l : List ℚ) :
    (forecastHoursGo first e l).length = l.length := by
  induction l generalizing e with
  | nil => rfl
  | cons c rest ih => simp [forecastHoursGo, ih]

lemma forecastHoursGo_getD (first : ℚ) (e : ℕ) (l : List ℚ) (t : ℕ)
    (h : t < l.length) :
    (forecastHoursGo first e l).getD t 0 =
      if e + t = 0 then 0 else ratTrunc ((l.getD t 0 - first) / 3600) := by
  induction l generalizing e t with
  | nil => simp at h
  | cons c rest ih =>
    cases t with
    | zero => simp [forecastHoursGo]
    | succ s =>
      have hs : s < rest.length := by simpa using h
      simp only [forecastHoursGo, List.getD_cons_succ]
      rw [ih (e + 1) s hs]
      have he : e + 1 + s = e + (s + 1) := by omega
      rw [he]

/-- Claim C5 counterexample: with primary timestamps 0 s and 5400 s (1.5 h
apart) the merged `forecast_hour` at `t = 1` is `int(1.5) = 1` (truncation),
not `round(1.5) = 2` as the claim's formula states. -/
theorem forecast_hour_not_round :
    (forecastHours [0, 5400]).getD 1 0 = 1 ∧
    round (((5400 : ℚ) - 0) / 3600) = 2 ∧
    decide ((forecastHours [0, 5400]).getD 1 0 =
      round (((5400 : ℚ) - 0) / 3600)) = false := by
  have harg : ((5400 : ℚ) - 0) / 3600 = 3 / 2 := by norm_num
  have h1 : (forecastHours [0, 5400]).getD 1 0 = 1 := by
    simp only [forecastHours, forecastHoursGo, List.getD_cons_zero,
      List.getD_cons_succ, Nat.succ_ne_zero, if_false]
    rw [harg]
    exact ratTrunc_three_halves
  have h2 : round (((5400 : ℚ) - 0) / 3600) = 2 := by
    rw [harg, round_eq]
    have : (3 : ℚ) / 2 + 1 / 2 = 2 := by norm_num
    rw [this, Int.floor_eq_iff]
    constructor <;> norm_num
  refine ⟨h1, h2, ?_⟩
  rw [decide_eq_false_iff_not, h1, h2]
  norm_num

/-- Claim C5 (amended): the `forecast_hour` of merged timestep `t` equals the
Python `int()` truncation toward zero of
`(primary_time[t] - primary_time[0]) / 3600` (not round-to-nearest), and it is
0 for `t = 0`. -/
theorem forecast_hour_trunc (times : List ℚ) (t : ℕ) (h : t < times.length) :
    (forecastHours times).length = times.length ∧
    (forecastHours times).getD t 0 =
      ratTrunc ((times.getD t 0 - times.getD 0 0) / 3600) ∧
    (forecastHours times).getD 0 0 = 0 := by
  refine ⟨forecastHoursGo_length _ _ _, ?_, ?_⟩
  · rw [forecastHours, forecastHoursGo_getD _ 0 times t h]
    cases t with
    | zero =>
      simp [ratTrunc]
    | succ s =>
      simp
  · cases times with
    | nil => rfl
    | cons c rest => rfl

/-- Claim C5 witness: at primary timestamps `[0, 5400]` seconds the theorem
gives forecast hours `[0, 1]` (`5400 / 3600` hours truncated to 1). -/
theorem forecast_hour_trunc_witness :
    (forecastHours [0, 5400]).length = 2 ∧
    (forecastHours [0, 5400]).getD 1 0 = 1 ∧
    (forecastHours [0, 5400]).getD 0 0 = 0 := by
  have h := forecast_hour_trunc ([0, 5400] : List ℚ) 1 (by norm_num)
  refine ⟨by simpa using h.1, ?_, h.2.2⟩
  rw [h.2.1]
  have harg : (([0, 5400] : List ℚ).getD 1 0 - ([0, 5400] : List ℚ).getD 0 0) / 3600
      = 3 / 2 := by
    norm_num [List.getD]
  rw [harg]
  exact ratTrunc_three_halves

/-! ## Claim C6: zero-precipitation exclusion -/

/-- Claim C6: a precipitation delta of exactly 0 is never emitted; a value
passes the precipitation filter exactly when it is a finite number that is
strictly positive, so the zero value never appears in a timestep's filtered
precipitation point list. -/
theorem precip_zero_excluded :
    precipEmit (FVal.fin 0) = false ∧
    (∀ v : FVal, precipEmit v = true ↔ ∃ q : ℚ, v = FVal.fin q ∧ 0 < q) ∧
    (∀ grid : List FVal, FVal.fin 0 ∉ grid.filter precipEmit) := by
  refine ⟨by decide, ?_, ?_⟩
  · intro v
    cases v with
    | fin q =>
        simp only [precipEmit, FVal.isnan, FVal.isinf, FVal.gtZero, Bool.not_false,
          Bool.true_and, decide_eq_true_eq, FVal.fin.injEq]
        constructor
        · exact fun h => ⟨q, rfl, h⟩
        · rintro ⟨q', rfl, h⟩
          exact h
    | pinf => simp [precipEmit, FVal.isnan, FVal.isinf, FVal.gtZero]
    | ninf => simp [precipEmit, FVal.isnan, FVal.isinf, FVal.gtZero]
    | nan => simp [precipEmit, FVal.isnan, FVal.isinf, FVal.gtZero]
  · intro grid h
    rw [List.mem_filter] at h
    exact absurd h.2 (by decide)

/-! ## Claim C7: statistics over emitted values, all-zero when empty -/

/-- Claim C7: every statistics record is all-zero on an empty point-value
list, and on a nonempty list each record is computed from exactly the supplied
values (min, max, mean = sum/length, and median or total as applicable). -/
theorem stats_empty_invariant :
    pm25Stats [] = ⟨0, 0, 0, 0⟩ ∧ windStats [] = ⟨0, 0, 0⟩ ∧
    precipStats [] = ⟨0, 0, 0, 0⟩ ∧ unifiedPrecipStats [] = ⟨0, 0, 0, 0⟩ ∧
    (∀ vals : List ℚ, vals ≠ [] →
      pm25Stats vals =
        ⟨listMin vals, listMax vals, vals.sum / vals.length, listMedian vals⟩ ∧
      windStats vals = ⟨listMin vals, listMax vals, vals.sum / vals.length⟩ ∧
      precipStats vals =
        ⟨listMin vals, listMax vals, vals.sum / vals.length, vals.sum⟩ ∧
      unifiedPrecipStats vals =
        ⟨listMin vals, listMax vals, vals.sum / vals.length, vals.sum⟩) := by
  refine ⟨rfl, rfl, rfl, rfl, ?_⟩
  intro vals h
  have h' : vals.isEmpty = false := by
    cases vals with
    | nil => exact absurd rfl h
    | cons a l => rfl
  refine ⟨?_, ?_, ?_, ?_⟩ <;>
    simp [pm25Stats, windStats, precipStats, unifiedPrecipStats, listMean, h']

/-! ## Claim C8: schema detection -/

lemma detectVariable_eq_some (vars : List String) :
    ∀ (cands : List String) (n : String),
    detectVariable vars cands = some n ↔
      ∃ i, i < cands.length ∧ cands.getD i "" = n ∧ n ∈ vars ∧
        ∀ j, j < i → cands.getD j "" ∉ vars := by
  intro cands
  induction cands with
  | nil =>
    intro n
    simp [detectVariable]
  | cons c rest ih =>
    intro n
    by_cases hc : c ∈ vars
    · simp only [detectVariable, if_pos hc]
      constructor
      · intro h
        injection h with h'
        subst h'
        exact ⟨0, Nat.succ_pos _, rfl, hc, fun j hj => absurd hj (Nat.not_lt_zero j)⟩
      · rintro ⟨i, hlen, hget, hmem, hfirst⟩
        cases i with
        | zero =>
          simp only [List.getD_cons_zero] at hget
          exact congrArg some hget
        | succ m =>
          have h0 := hfirst 0 (Nat.succ_pos m)
          simp only [List.getD_cons_zero] at h0
          exact absurd hc h0
    · simp only [detectVariable, if_neg hc]
      rw [ih n]
      constructor
      · rintro ⟨i, hlen, hget, hmem, hfirst⟩
        refine ⟨i + 1, by simpa using Nat.succ_lt_succ hlen, by simpa using hget,
          hmem, ?_⟩
        intro j hj
        cases j with
        | zero => simpa using hc
        | succ j' =>
          have := hfirst j' (by omega)
          simpa using this
      · rintro ⟨i, hlen, hget, hmem, hfirst⟩
        cases i with
        | zero =>
          simp only [List.getD_cons_zero] at hget
          subst hget
          exact absurd hmem hc
        | succ m =>
          refine ⟨m, by simpa using hlen, by simpa using hget, hmem, ?_⟩
          intro j hj
          have := hfirst (j + 1) (by omega)
          simpa using this

lemma detectDimension_eq (dims : List String) :
    ∀ cands, detectDimension dims cands = detectVariable dims cands := by
  intro cands
  induction cands with
  | nil => rfl
  | cons c rest ih => simp [detectDimension, detectVariable, ih]

lemma detectSchema_isOk (data_vars dims : List String) :
    (detectSchema data_vars dims).isOk =
      ((detectVariable data_vars pm25Aliases).isSome &&
       (detectVariable data_vars uWindAliases).isSome &&
       (detectVariable data_vars vWindAliases).isSome &&
       (detectDimension dims latAliases).isSome &&
       (detectDimension dims lonAliases).isSome &&
       (detectDimension dims timeAliases).isSome) := by
  unfold detectSchema
  cases detectVariable data_vars pm25Aliases <;>
    cases detectVariable data_vars uWindAliases <;>
      cases detectVariable data_vars vWindAliases <;>
        cases detectDimension dims latAliases <;>
          cases detectDimension dims lonAliases <;>
            cases detectDimension dims timeAliases <;>
              rfl

lemma detectSchema_ok_precip (data_vars dims : List String) (s : DetectedSchema)
    (h : detectSchema data_vars dims = Except.ok s) :
    s.precipVar = detectVariable data_vars precipAliases := by
  revert h
  unfold detectSchema
  cases detectVariable data_vars pm25Aliases <;>
    cases detectVariable data_vars uWindAliases <;>
      cases detectVariable data_vars vWindAliases <;>
        cases detectDimension dims latAliases <;>
          cases detectDimension dims lonAliases <;>
            cases detectDimension dims timeAliases <;>
              intro h <;>
                first
                | (injection h with h'; subst h'; rfl)
                | simp at h

/-- Claim C8: variable/dimension detection returns the first alias, in
priority order, present in the dataset's variable (resp. dimension) namespace
(every earlier alias is absent, with no partial matching); the detection phase
succeeds exactly when all six required names (concentration, u-wind, v-wind,
lat, lon, time) resolve, the resolved precipitation variable is whatever the
(optional) precipitation lookup returned, and a dataset with no precipitation
alias still succeeds with no precipitation variable. -/
theorem schema_detection (data_vars dims : List String) :
    (∀ cands n, detectVariable data_vars cands = some n ↔
      ∃ i, i < cands.length ∧ cands.getD i "" = n ∧ n ∈ data_vars ∧
        ∀ j, j < i → cands.getD j "" ∉ data_vars) ∧
    (∀ cands, detectDimension dims cands = detectVariable dims cands) ∧
    ((detectSchema data_vars dims).isOk =
      ((detectVariable data_vars pm25Aliases).isSome &&
       (detectVariable data_vars uWindAliases).isSome &&
       (detectVariable data_vars vWindAliases).isSome &&
       (detectDimension dims latAliases).isSome &&
       (detectDimension dims lonAliases).isSome &&
       (detectDimension dims timeAliases).isSome)) ∧
    (∀ s, detectSchema data_vars dims = Except.ok s →
      s.precipVar = detectVariable data_vars precipAliases) ∧
    detectSchema ["pm2p5", "u10", "v10"] ["latitude", "longitude", "time"] =
      Except.ok ⟨"pm2p5", "u10", "v10", none, "latitude", "longitude", "time"⟩ :=
  ⟨fun cands n => detectVariable_eq_some data_vars cands n,
   detectDimension_eq dims,
   detectSchema_isOk data_vars dims,
   fun s h => detectSchema_ok_precip data_vars dims s h,
   rfl⟩

/-! ## Claim C9: derived wind quantities -/

lemma rmod_bounds (x y : ℝ) (hy : 0 < y) : 0 ≤ rmod x y ∧ rmod x y < y := by
  have hfl : ((⌊x / y⌋ : ℤ) : ℝ) ≤ x / y := Int.floor_le _
  have hfu : x / y < (⌊x / y⌋ : ℤ) + 1 := Int.lt_floor_add_one _
  have hy' : y ≠ 0 := ne_of_gt hy
  constructor
  · rw [rmod, sub_nonneg]
    calc y * (⌊x / y⌋ : ℝ) ≤ y * (x / y) := mul_le_mul_of_nonneg_left hfl hy.le
    _ = x := by field_simp
  · rw [rmod, sub_lt_iff_lt_add]
    calc x = y * (x / y) := by field_simp
    _ < y * ((⌊x / y⌋ : ℝ) + 1) := mul_lt_mul_of_pos_left hfu hy
    _ = y + y * (⌊x / y⌋ : ℝ) := by ring

/-- Claim C9: for every wind component pair `(u, v)` the derived speed is
`sqrt(u² + v²)` and the derived direction is
`(270 - degrees(atan2 v u)) mod 360`, which always lies in `[0, 360)`. -/
theorem wind_derived (u v : ℝ) :
    windSpeed u v = Real.sqrt (u ^ 2 + v ^ 2) ∧
    windDirection u v = rmod (270 - degrees (atan2 v u)) 360 ∧
    0 ≤ windDirection u v ∧ windDirection u v < 360 := by
  refine ⟨rfl, rfl, ?_, ?_⟩
  · exact (rmod_bounds _ 360 (by norm_num)).1
  · exact (rmod_bounds _ 360 (by norm_num)).2

/-! ## Claim C10: merged output keeps zero-valued precipitation points -/

/-- Claim C10: in the cross-source merged output a secondary precipitation
value of exactly 0 passes the filter (only `null` and NaN are rejected, with
no strict-positivity and no infinity check), so merged timesteps can contain
zero-valued precipitation points, unlike the primary-source filter which
rejects 0. -/
theorem unified_zero_precip_emitted :
    unifiedPrecipEmit (some (FVal.fin 0)) = true ∧
    unifiedPrecipEmit none = false ∧
    unifiedPrecipEmit (some FVal.nan) = false ∧
    unifiedPrecipEmit (some FVal.pinf) = true ∧
    precipEmit (FVal.fin 0) = false ∧
    (∀ ov : Option FVal,
      unifiedPrecipEmit ov = true ↔ ∃ x : FVal, ov = some x ∧ x.isnan = false) ∧
    (∀ pts : List (Option FVal), some (FVal.fin 0) ∈ pts →
      some (FVal.fin 0) ∈ pts.filter unifiedPrecipEmit) := by
  refine ⟨rfl, rfl, rfl, rfl, by decide, ?_, ?_⟩
  · intro ov
    cases ov with
    | none => simp [unifiedPrecipEmit]
    | some x =>
        cases x <;> simp [unifiedPrecipEmit, FVal.isnan]
  · intro pts h
    exact List.mem_filter.mpr ⟨h, rfl⟩

end Skywatch
